import Mathlib

/-!
Verification of `src/scripts/img_to_bytes.py`.

The script is a one-shot CLI transformation:

  def main() -> int:
      if len(sys.argv) != 2:
          print(f"Usage: {sys.argv[0]} <image>")
          return 1
      if not os.path.exists(sys.argv[1]):
          print(f"Error: {sys.argv[1]} not found.")
          return 1
      image = Image.open(sys.argv[1])
      print([float(i) for i in image.tobytes()])
      return 0

We embed it shallowly: `sys.argv` is the program name plus an argument
list, `os.path.exists` is an explicit predicate on paths, and the external
image-decoding collaborator (Pillow) is an explicit function from paths to
optional decoded images, `none` standing for a raised decoding exception.
All of `main`'s observable behaviour (printed lines and the returned exit
code, or an uncaught exception) is collected in an `Outcome`.
-/

namespace ImgToBytes

/-- The decoding collaborator's product: a decoded raster image. Per the
spec's collaborator contract, a decoded image has a width, a height, a
channel count, and a pixel buffer of 8-bit samples laid out row-major with
interleaved channels; `pixel y x c` is the byte at row `y`, column `x`,
channel `c`, and every sample is a byte, i.e. below 256. -/
structure DecodedImage where
  width : Nat
  height : Nat
  channels : Nat
  pixel : Nat → Nat → Nat → Nat
  pixel_lt : ∀ y x c, pixel y x c < 256

/-- The raw byte buffer of a decoded image, as Pillow's `Image.tobytes`
exposes it: rows from top to bottom, pixels left to right within a row,
channel samples interleaved within a pixel. -/
def tobytes (img : DecodedImage) : List Nat :=
  ((List.range img.height).map (fun y =>
    ((List.range img.width).map (fun x =>
      (List.range img.channels).map (fun c => img.pixel y x c))).flatten)).flatten

/-- Round `num / den` to the nearest integer, ties to even (the IEEE 754
default rounding used by CPython's int-to-float conversion). `den` is
assumed positive. -/
def roundHalfEven (num den : Nat) : Nat :=
  let q := num / den
  let r := num % den
  if 2 * r < den then q
  else if den < 2 * r then q + 1
  else if q % 2 = 0 then q else q + 1

/-- The exact numeric value of CPython's `float(n)` for a natural number
`n`: an IEEE 754 binary64 significand holds 53 bits, so any `n < 2 ^ 53`
converts exactly; a larger `n` is rounded to the nearest multiple of
`2 ^ (bitlength - 53)`, ties to even. The result is always integral, so we
record it as a natural number. -/
def doubleOfNat (n : Nat) : Nat :=
  if n < 2 ^ 53 then n
  else
    let s := n.log2 + 1 - 53
    roundHalfEven n (2 ^ s) * 2 ^ s

/-- CPython's `repr` of an integral non-negative float below 10 ^ 16: the
integer digits followed by `.0` (e.g. `float(200)` prints as `200.0`). -/
def pyFloatRepr (v : Nat) : String := toString v ++ ".0"

/-- The usage line printed on a wrong argument count
(`f"Usage: {sys.argv[0]} <image>"`). -/
def usageLine (prog : String) : String := "Usage: " ++ prog ++ " <image>"

/-- The error line printed for a missing path
(`f"Error: {sys.argv[1]} not found."`). -/
def notFoundLine (path : String) : String := "Error: " ++ path ++ " not found."

/-- The line `print([float(i) for i in image.tobytes()])` writes: Python's
list literal of the floats, bracketed and comma-separated. -/
def bytesLine (img : DecodedImage) : String :=
  "[" ++ String.intercalate ", "
    ((tobytes img).map (fun b => pyFloatRepr (doubleOfNat b))) ++ "]"

/-- How a run of `main` ends: a normal `return code`, or an uncaught
exception propagating out (as `Image.open`'s failures do). -/
inductive PyResult where
  | normal (code : Nat)
  | raised
  deriving DecidableEq

/-- The process exit status a `PyResult` produces: a normal return of
`code` from `main` becomes `exit(code)`; an uncaught exception makes the
CPython interpreter exit with status 1 (non-zero). -/
def processStatus : PyResult → Nat
  | .normal c => c
  | .raised => 1

/-- Everything a run observably does: the lines printed to standard
output, in order, and how the run ended. -/
structure Outcome where
  output : List String
  result : PyResult
  deriving DecidableEq

/-- Shallow embedding of `main`. `prog` is `sys.argv[0]`, `args` the rest
of `sys.argv`, `fs` is `os.path.exists`, and `dec` is the decoding
collaborator: `dec path = some img` when `Image.open(path)` succeeds with
the decoded image `img`, and `dec path = none` when it raises. -/
def main (prog : String) (args : List String) (fs : String → Bool)
    (dec : String → Option DecodedImage) : Outcome :=
  match args with
  | [path] =>
    if fs path then
      match dec path with
      | some img => ⟨[bytesLine img], .normal 0⟩
      | none => ⟨[], .raised⟩
    else ⟨[notFoundLine path], .normal 1⟩
  | _ => ⟨[usageLine prog], .normal 1⟩

/-- The atomic steps of a run, for the control-flow ordering claim. -/
inductive Ev where
  | argCheck
  | existsCheck (path : String)
  | decodeStep (path : String)
  | printStep (line : String)
  | ret (code : Nat)
  | raise
  deriving DecidableEq

/-- The instrumented embedding of `main`: the same control flow as `main`,
but recording each step in order — the argument-count check, the
existence check, the call into the decoder, each print, and the final
return or uncaught exception. -/
def mainTrace (prog : String) (args : List String) (fs : String → Bool)
    (dec : String → Option DecodedImage) : List Ev :=
  match args with
  | [path] =>
    Ev.argCheck :: Ev.existsCheck path ::
      (if fs path then
        Ev.decodeStep path ::
          (match dec path with
           | some img => [Ev.printStep (bytesLine img), Ev.ret 0]
           | none => [Ev.raise])
       else [Ev.printStep (notFoundLine path), Ev.ret 1])
  | _ => [Ev.argCheck, Ev.printStep (usageLine prog), Ev.ret 1]

/-- The lines printed along a trace, in order. -/
def printsOf (tr : List Ev) : List String :=
  tr.filterMap (fun e => match e with
    | Ev.printStep s => some s
    | _ => none)

/-- The way a trace ends, read off its last event. -/
def finalOf : List Ev → Option PyResult
  | [] => none
  | [Ev.ret c] => some (.normal c)
  | [Ev.raise] => some .raised
  | [_] => none
  | _ :: e :: tr => finalOf (e :: tr)

/-- The instrumented embedding agrees with `main`: the printed lines of
the trace are exactly `main`'s output, and the trace's final event is
exactly `main`'s result. -/
theorem mainTrace_refines_main (prog : String) (args : List String)
    (fs : String → Bool) (dec : String → Option DecodedImage) :
    printsOf (mainTrace prog args fs dec) = (main prog args fs dec).output ∧
    finalOf (mainTrace prog args fs dec) = some (main prog args fs dec).result := by
  match args with
  | [path] =>
    by_cases h : fs path
    · cases hd : dec path <;>
        simp [main, mainTrace, printsOf, finalOf, h, hd]
    · simp [main, mainTrace, printsOf, finalOf, h]
  | [] => exact ⟨rfl, rfl⟩
  | a :: b :: t => exact ⟨rfl, rfl⟩

/-- The length of the raw byte buffer is `width * height * channels`. -/
theorem length_tobytes (img : DecodedImage) :
    (tobytes img).length = img.width * img.height * img.channels := by
  have hrow : ∀ y : Nat,
      (((List.range img.width).map (fun x =>
        (List.range img.channels).map (fun c => img.pixel y x c))).flatten).length
        = img.width * img.channels := by
    intro y
    rw [List.length_flatten, List.map_map]
    have : ((List.range img.width).map
        (List.length ∘ fun x =>
          (List.range img.channels).map (fun c => img.pixel y x c)))
        = (List.range img.width).map (fun _ => img.channels) := by
      apply List.map_congr_left
      intro x _
      simp
    rw [this, List.map_const', List.sum_replicate, List.length_range,
      smul_eq_mul]
  rw [tobytes, List.length_flatten, List.map_map]
  have : ((List.range img.height).map
      (List.length ∘ fun y =>
        ((List.range img.width).map (fun x =>
          (List.range img.channels).map (fun c => img.pixel y x c))).flatten))
      = (List.range img.height).map (fun _ => img.width * img.channels) := by
    apply List.map_congr_left
    intro y _
    exact hrow y
  rw [this, List.map_const', List.sum_replicate, List.length_range,
    smul_eq_mul]
  ring

/-- Every entry of the raw byte buffer is a byte, i.e. below 256. -/
theorem mem_tobytes_lt (img : DecodedImage) (b : Nat) (hb : b ∈ tobytes img) :
    b < 256 := by
  rw [tobytes, List.mem_flatten] at hb
  obtain ⟨row, hrowmem, hbrow⟩ := hb
  rw [List.mem_map] at hrowmem
  obtain ⟨y, hy, hyeq⟩ := hrowmem
  subst hyeq
  rw [List.mem_flatten] at hbrow
  obtain ⟨cell, hcellmem, hbcell⟩ := hbrow
  rw [List.mem_map] at hcellmem
  obtain ⟨x, hx, hxeq⟩ := hcellmem
  subst hxeq
  rw [List.mem_map] at hbcell
  obtain ⟨c, hc, hceq⟩ := hbcell
  exact hceq ▸ img.pixel_lt y x c

/-- Converting a byte to a binary64 float is exact: bytes are far below
the 53-bit significand limit. -/
theorem doubleOfNat_byte (b : Nat) (hb : b < 256) : doubleOfNat b = b := by
  have h : b < 2 ^ 53 := lt_of_lt_of_le hb (by norm_num)
  unfold doubleOfNat
  rw [if_pos h]

/-- A valid 1-by-1 grayscale image whose single pixel byte value is 128,
as in the spec's worked example. -/
def grayPixel128 : DecodedImage where
  width := 1
  height := 1
  channels := 1
  pixel := fun _ _ _ => 128
  pixel_lt := fun _ _ _ => by norm_num

/-- A file system on which every path exists. -/
def fsAll : String → Bool := fun _ => true

/-- A file system on which no path exists. -/
def fsNone : String → Bool := fun _ => false

/-- A decoder that decodes every path to the 1-by-1 grayscale image. -/
def decGray : String → Option DecodedImage := fun _ => some grayPixel128

/-- A decoder that raises on every path (corrupt file, unsupported format,
or a directory). -/
def decFail : String → Option DecodedImage := fun _ => none

/-- The success line always starts with a bracket while the not-found line
always starts with `E`, so the two can never coincide. -/
theorem bytesLine_ne_notFoundLine (img : DecodedImage) (p : String) :
    bytesLine img ≠ notFoundLine p := by
  intro h
  have hd : (bytesLine img).data.head? = (notFoundLine p).data.head? :=
    congrArg (fun s => s.data.head?) h
  rw [show (bytesLine img).data.head? = some '[' from rfl,
    show (notFoundLine p).data.head? = some 'E' from rfl] at hd
  exact absurd hd (by decide)

/-- C1: for every invocation on a valid image file (one argument, the path
exists, decoding succeeds), the printed sequence of numbers — the floats
of the buffer bytes on the single output line — has length
`width * height * channels` of that image. -/
theorem printed_count_eq_buffer_size (prog path : String) (fs : String → Bool)
    (dec : String → Option DecodedImage) (img : DecodedImage)
    (hfs : fs path = true) (hdec : dec path = some img) :
    (main prog [path] fs dec).output = [bytesLine img] ∧
    ((tobytes img).map (fun b => pyFloatRepr (doubleOfNat b))).length
      = img.width * img.height * img.channels := by
  constructor
  · simp [main, hfs, hdec]
  · rw [List.length_map, length_tobytes]

theorem printed_count_eq_buffer_size_witness :
    (main "img_to_bytes.py" ["cat.png"] fsAll decGray).output
      = [bytesLine grayPixel128] ∧
    ((tobytes grayPixel128).map (fun b => pyFloatRepr (doubleOfNat b))).length
      = grayPixel128.width * grayPixel128.height * grayPixel128.channels :=
  printed_count_eq_buffer_size "img_to_bytes.py" "cat.png" fsAll decGray
    grayPixel128 rfl rfl

/-- C2: every byte of the decoded pixel buffer converts to floating point
exactly (`float(b)` has numeric value `b`), so every printed value lies in
the interval from 0 to 255. -/
theorem float_widening_exact (img : DecodedImage) (b : Nat)
    (hb : b ∈ tobytes img) :
    doubleOfNat b = b ∧ doubleOfNat b ≤ 255 := by
  have h := mem_tobytes_lt img b hb
  refine ⟨doubleOfNat_byte b h, ?_⟩
  rw [doubleOfNat_byte b h]
  omega

theorem float_widening_exact_witness :
    doubleOfNat 128 = 128 ∧ doubleOfNat 128 ≤ 255 :=
  float_widening_exact grayPixel128 128 (by decide)

/-- C3: whenever the argument count (excluding the program name) is not
exactly one, the program prints the usage line
`Usage: <program> <image>` and returns exit code 1. -/
theorem wrong_arg_count_usage (prog : String) (args : List String)
    (fs : String → Bool) (dec : String → Option DecodedImage)
    (h : args.length ≠ 1) :
    main prog args fs dec = ⟨[usageLine prog], .normal 1⟩ := by
  match args with
  | [] => rfl
  | [a] => exact absurd rfl h
  | a :: b :: t => rfl

theorem wrong_arg_count_usage_witness :
    main "img_to_bytes.py" [] fsAll decGray
      = ⟨["Usage: img_to_bytes.py <image>"], .normal 1⟩ :=
  wrong_arg_count_usage "img_to_bytes.py" [] fsAll decGray (by decide)

/-- C4: with exactly one argument naming a path that does not exist, the
program prints `Error: <path> not found.` and returns exit code 1. -/
theorem missing_path_not_found (prog path : String) (fs : String → Bool)
    (dec : String → Option DecodedImage) (h : fs path = false) :
    main prog [path] fs dec = ⟨[notFoundLine path], .normal 1⟩ := by
  simp [main, h]

theorem missing_path_not_found_witness :
    main "img_to_bytes.py" ["missing.png"] fsNone decGray
      = ⟨["Error: missing.png not found."], .normal 1⟩ :=
  missing_path_not_found "img_to_bytes.py" "missing.png" fsNone decGray rfl

/-- C5: with one argument naming an existing, successfully decodable
image, the program prints the byte sequence as a single bracketed,
comma-separated line of floats and returns exit code 0; the witness below
instantiates this on a valid 1-by-1 grayscale image whose pixel byte is
128, which prints exactly `[128.0]`. -/
theorem valid_image_single_line_zero (prog path : String)
    (fs : String → Bool) (dec : String → Option DecodedImage)
    (img : DecodedImage) (hfs : fs path = true) (hdec : dec path = some img) :
    main prog [path] fs dec = ⟨[bytesLine img], .normal 0⟩ := by
  simp [main, hfs, hdec]

theorem valid_image_single_line_zero_witness :
    main "img_to_bytes.py" ["gray1x1.png"] fsAll decGray
      = ⟨["[128.0]"], .normal 0⟩ :=
  valid_image_single_line_zero "img_to_bytes.py" "gray1x1.png" fsAll decGray
    grayPixel128 rfl rfl

/-- C6: with one argument naming an existing path that does not decode,
the failure is not caught: the run ends in an uncaught exception (hence a
non-zero process status) and neither user-facing message — indeed nothing
at all — is printed. -/
theorem decode_failure_uncaught (prog path : String) (fs : String → Bool)
    (dec : String → Option DecodedImage) (hfs : fs path = true)
    (hdec : dec path = none) :
    main prog [path] fs dec = ⟨[], .raised⟩ ∧
    processStatus (main prog [path] fs dec).result ≠ 0 := by
  have hm : main prog [path] fs dec = ⟨[], .raised⟩ := by
    simp [main, hfs, hdec]
  refine ⟨hm, ?_⟩
  rw [hm]
  simp [processStatus]

theorem decode_failure_uncaught_witness :
    main "img_to_bytes.py" ["corrupt.png"] fsAll decFail = ⟨[], .raised⟩ ∧
    processStatus (main "img_to_bytes.py" ["corrupt.png"] fsAll decFail).result
      ≠ 0 :=
  decode_failure_uncaught "img_to_bytes.py" "corrupt.png" fsAll decFail rfl rfl

/-- C7: the run is deterministic and keeps no state: two runs on the same
argument list, against file systems and decoders that agree on every
argument path, produce the same output and the same exit result. -/
theorem run_deterministic (prog : String) (args : List String)
    (fs1 fs2 : String → Bool) (dec1 dec2 : String → Option DecodedImage)
    (h : ∀ p ∈ args, fs1 p = fs2 p ∧ dec1 p = dec2 p) :
    main prog args fs1 dec1 = main prog args fs2 dec2 := by
  match args with
  | [path] =>
    obtain ⟨hfs, hdec⟩ := h path (List.mem_singleton.mpr rfl)
    simp [main, hfs, hdec]
  | [] => rfl
  | a :: b :: t => rfl

theorem run_deterministic_witness :
    main "img_to_bytes.py" ["img.png"] fsAll decGray
      = main "img_to_bytes.py" ["img.png"]
          (fun q => !(q == "missing.png"))
          (fun q => if q == "missing.png" then none else some grayPixel128) :=
  run_deterministic "img_to_bytes.py" ["img.png"] fsAll
    (fun q => !(q == "missing.png")) decGray
    (fun q => if q == "missing.png" then none else some grayPixel128)
    (by
      intro p hp
      rw [List.mem_singleton] at hp
      subst hp
      exact ⟨rfl, rfl⟩)

/-- C8: the steps occur in a fixed order. The instrumented trace agrees
with `main` (same printed lines, same final result), and every run's trace
is one of exactly four step sequences, each beginning with the argument
check: usage print after the argument check when the argument count is
wrong; existence check then not-found print when the path is missing;
argument check, existence check, then decoder call for an existing path —
so the decoder is never reached with a wrong argument count or a missing
path, and no print ever precedes the check that triggers it. -/
theorem fixed_step_order (prog : String) (args : List String)
    (fs : String → Bool) (dec : String → Option DecodedImage) :
    (printsOf (mainTrace prog args fs dec) = (main prog args fs dec).output ∧
     finalOf (mainTrace prog args fs dec)
       = some (main prog args fs dec).result) ∧
    (args.length ≠ 1 ∧
       mainTrace prog args fs dec
         = [Ev.argCheck, Ev.printStep (usageLine prog), Ev.ret 1] ∨
     (∃ path, args = [path] ∧ fs path = false ∧
       mainTrace prog args fs dec
         = [Ev.argCheck, Ev.existsCheck path,
            Ev.printStep (notFoundLine path), Ev.ret 1]) ∨
     (∃ path, args = [path] ∧ fs path = true ∧ dec path = none ∧
       mainTrace prog args fs dec
         = [Ev.argCheck, Ev.existsCheck path, Ev.decodeStep path,
            Ev.raise]) ∨
     (∃ path img, args = [path] ∧ fs path = true ∧ dec path = some img ∧
       mainTrace prog args fs dec
         = [Ev.argCheck, Ev.existsCheck path, Ev.decodeStep path,
            Ev.printStep (bytesLine img), Ev.ret 0])) := by
  refine ⟨mainTrace_refines_main prog args fs dec, ?_⟩
  match args with
  | [path] =>
    cases hfs : fs path with
    | true =>
      cases hdec : dec path with
      | none =>
        exact Or.inr (Or.inr (Or.inl
          ⟨path, rfl, hfs, hdec, by simp [mainTrace, hfs, hdec]⟩))
      | some img =>
        exact Or.inr (Or.inr (Or.inr
          ⟨path, img, rfl, hfs, hdec, by simp [mainTrace, hfs, hdec]⟩))
    | false =>
      exact Or.inr (Or.inl ⟨path, rfl, hfs, by simp [mainTrace, hfs]⟩)
  | [] => exact Or.inl ⟨by simp, rfl⟩
  | a :: b :: t => exact Or.inl ⟨by simp, rfl⟩

theorem fixed_step_order_witness :
    (printsOf (mainTrace "img_to_bytes.py" [] fsAll decGray)
       = (main "img_to_bytes.py" [] fsAll decGray).output ∧
     finalOf (mainTrace "img_to_bytes.py" [] fsAll decGray)
       = some (main "img_to_bytes.py" [] fsAll decGray).result) ∧
    (([] : List String).length ≠ 1 ∧
       mainTrace "img_to_bytes.py" [] fsAll decGray
         = [Ev.argCheck, Ev.printStep (usageLine "img_to_bytes.py"),
            Ev.ret 1] ∨
     (∃ path, ([] : List String) = [path] ∧ fsAll path = false ∧
       mainTrace "img_to_bytes.py" [] fsAll decGray
         = [Ev.argCheck, Ev.existsCheck path,
            Ev.printStep (notFoundLine path), Ev.ret 1]) ∨
     (∃ path, ([] : List String) = [path] ∧ fsAll path = true ∧
         decGray path = none ∧
       mainTrace "img_to_bytes.py" [] fsAll decGray
         = [Ev.argCheck, Ev.existsCheck path, Ev.decodeStep path,
            Ev.raise]) ∨
     (∃ path img, ([] : List String) = [path] ∧ fsAll path = true ∧
         decGray path = some img ∧
       mainTrace "img_to_bytes.py" [] fsAll decGray
         = [Ev.argCheck, Ev.existsCheck path, Ev.decodeStep path,
            Ev.printStep (bytesLine img), Ev.ret 0])) :=
  fixed_step_order "img_to_bytes.py" [] fsAll decGray

/-- C9: whenever `main` returns normally, the returned exit code is 0
or 1; no other code can be produced by a normal return. -/
theorem normal_return_code_in_zero_one (prog : String) (args : List String)
    (fs : String → Bool) (dec : String → Option DecodedImage) (c : Nat)
    (h : (main prog args fs dec).result = PyResult.normal c) :
    c = 0 ∨ c = 1 := by
  match args with
  | [path] =>
    cases hfs : fs path with
    | true =>
      cases hdec : dec path with
      | none => simp [main, hfs, hdec] at h
      | some img =>
        simp [main, hfs, hdec] at h
        exact Or.inl h.symm
    | false =>
      simp [main, hfs] at h
      exact Or.inr h.symm
  | [] =>
    simp [main] at h
    exact Or.inr h.symm
  | a :: b :: t =>
    simp [main] at h
    exact Or.inr h.symm

theorem normal_return_code_in_zero_one_witness : (1 : Nat) = 0 ∨ (1 : Nat) = 1 :=
  normal_return_code_in_zero_one "img_to_bytes.py" [] fsAll decGray 1 rfl

/-- C10: with one argument naming an existing path, the not-found message
is never printed: the run reaches the decoder call, and if the path is not
a decodable image (a directory, say) the failure surfaces only as an
uncaught decoder exception with nothing printed. -/
theorem existing_path_reaches_decoder (prog path : String)
    (fs : String → Bool) (dec : String → Option DecodedImage)
    (hfs : fs path = true) :
    notFoundLine path ∉ (main prog [path] fs dec).output ∧
    Ev.decodeStep path ∈ mainTrace prog [path] fs dec ∧
    (dec path = none → main prog [path] fs dec = ⟨[], .raised⟩) := by
  refine ⟨?_, ?_, ?_⟩
  · cases hdec : dec path with
    | none => simp [main, hfs, hdec]
    | some img =>
      simp only [main, hfs, if_true, hdec]
      rw [List.mem_singleton]
      intro h
      exact bytesLine_ne_notFoundLine img path h.symm
  · simp [mainTrace, hfs]
  · intro hdec
    simp [main, hfs, hdec]

theorem existing_path_reaches_decoder_witness :
    notFoundLine "somedir" ∉ (main "img_to_bytes.py" ["somedir"] fsAll decFail).output ∧
    Ev.decodeStep "somedir" ∈ mainTrace "img_to_bytes.py" ["somedir"] fsAll decFail ∧
    (decFail "somedir" = none
      → main "img_to_bytes.py" ["somedir"] fsAll decFail = ⟨[], .raised⟩) :=
  existing_path_reaches_decoder "img_to_bytes.py" "somedir" fsAll decFail rfl

end ImgToBytes
